import Mathlib

/-!
Verification of the bullion-tracker core against its specification.

The development shallowly embeds the two Python modules
`scripts/scrape_prices.py` (text normalizer, dealer adapters, catalog
builder) and `scripts/generate_site.py` (deal optimizer) into Lean.

Modelling conventions:
* Python floats are modelled as exact rationals (`ℚ`); `round(x, n)` is
  modelled as round-half-to-even at `n` decimal places on rationals.
* Python dictionaries with optional keys become structures with `Option`
  fields; `dict.get(k, d)` becomes `Option.getD`.
* Code that can raise returns `Except PyErr`; `ZeroDivisionError` and
  `ValueError` are the two exception kinds reachable in the embedded code.
* The regular-expression searches of `parse_weight_oz` are embedded as
  specialised leftmost-match scanners for the five fixed patterns of the
  source.  For these patterns a greedy character-class run can never be
  shrunk by backtracking (the characters handed back are digits or dots,
  while the remainder of each pattern can only start with whitespace or a
  letter), so each pattern matches at a position iff the maximal run at
  that position is followed by the pattern's suffix.
* HTML/regex extraction of raw candidate records (row tuples, item
  blocks, JSON items) is taken as the adapters' input, as in §4.1 of the
  spec ("candidate records"); everything from the candidate record to the
  finished product dictionary is embedded from the source line by line.
-/

/- Batteries marks the arithmetic of `ℚ` irreducible; concrete instances
of the embedded functions are evaluated by `decide`, which needs these
definitions to unfold. -/
attribute [local semireducible] Rat.ofScientific Rat.mul Rat.inv Rat.add Rat.sub

/-! ### Python string and float primitives -/

/-- Python `\s` (ASCII whitespace, as produced by `str.strip()` and `\s*`). -/
def pyIsSpace (c : Char) : Bool :=
  c == ' ' || c == '\t' || c == '\n' || c == '\r' || c == '\x0b' || c == '\x0c'

/-- A character of the regex class `[\d.]`. -/
def isNumChar (c : Char) : Bool := c.isDigit || c == '.'

/-- Python `\w`, ASCII fragment (used for the `\b` boundary after `g`). -/
def isWordChar (c : Char) : Bool := c.isAlphanum || c == '_'

/-- Python `str.strip()` on a character list. -/
def pyStripChars (s : List Char) : List Char :=
  ((s.dropWhile pyIsSpace).reverse.dropWhile pyIsSpace).reverse

/-- Python `str.strip()`. -/
def pyStripStr (s : String) : String := ⟨pyStripChars s.data⟩

/-- Python `str.lower()` on a character list (ASCII). -/
def lowerChars (s : List Char) : List Char := s.map Char.toLower

/-- Value of a run of decimal digits (Python `float` on a `\d+` capture). -/
def digitsToNat (s : List Char) : ℕ :=
  s.foldl (fun n c => n * 10 + (c.toNat - '0'.toNat)) 0

/-- Python `float()` on a string drawn from the class `[\d.]*`:
defined iff every character is a digit or dot, there is at least one digit
and at most one dot.  (`float("1.2.3")` and `float(".")` raise.) -/
def floatOfNumString (s : List Char) : Option ℚ :=
  if s.all isNumChar && s.any Char.isDigit && s.count '.' ≤ 1 then
    let ip := s.takeWhile (fun c => c != '.')
    let fp := s.drop (ip.length + 1)
    some ((digitsToNat ip : ℚ) + (digitsToNat fp : ℚ) / 10 ^ fp.length)
  else none

/-- Python `float()` on an arbitrary cleaned price string: optional sign,
then a digits/dot numeral.  The exponent, `inf`/`nan` and underscore forms
of the Python float grammar are never exercised by this code base and are
not modelled. -/
def pyFloatOfString (t : List Char) : Option ℚ :=
  match pyStripChars t with
  | '-' :: rest => (floatOfNumString rest).map (fun q => -q)
  | '+' :: rest => floatOfNumString rest
  | u => floatOfNumString u

/-! ### Rounding

Python's `round` rounds half to even; `round(x, n)` is modelled exactly on
rationals. -/

/-- Python `abs` (kernel-computable form of `|q|`). -/
def pyAbs (q : ℚ) : ℚ := if q < 0 then -q else q

theorem pyAbs_eq_abs (q : ℚ) : pyAbs q = |q| := by
  unfold pyAbs
  split
  · rw [abs_of_neg]
    assumption
  · rw [abs_of_nonneg]
    exact not_lt.mp (by assumption)

/-- Python `round(q)`: round half to even.  (`Rat.floor` is used rather
than `⌊q⌋` so that concrete instances evaluate inside the kernel; the two
agree by `Rat.floor_def'`.) -/
def pyRound (q : ℚ) : ℤ :=
  let f := q.floor
  let frac := q - (f : ℚ)
  if frac < 1 / 2 then f
  else if 1 / 2 < frac then f + 1
  else if f % 2 = 0 then f else f + 1

/-- Python `round(q, 2)`. -/
def round2 (q : ℚ) : ℚ := (pyRound (q * 100) : ℚ) / 100

/-- Python `round(q, 4)`. -/
def round4 (q : ℚ) : ℚ := (pyRound (q * 10000) : ℚ) / 10000

/-! ### The weight-pattern scanners of `parse_weight_oz` -/

/-- Skip `\s*`. -/
def afterSpaces (s : List Char) : List Char := s.dropWhile pyIsSpace

/-- Match a literal, returning the remainder. -/
def litPrefix : List Char → List Char → Option (List Char)
  | [], s => some s
  | _ :: _, [] => none
  | c :: cs, d :: ds => if c == d then litPrefix cs ds else none

/-- Suffix `\s*oz` of patterns 1 and 2. -/
def suffixOz (s : List Char) : Bool := (litPrefix ['o', 'z'] (afterSpaces s)).isSome

/-- Suffix `\s*kg` of pattern 3. -/
def suffixKg (s : List Char) : Bool := (litPrefix ['k', 'g'] (afterSpaces s)).isSome

/-- Suffix `\s*(?:gram|g\b)` of pattern 4. -/
def suffixGram (s : List Char) : Bool :=
  let t := afterSpaces s
  (litPrefix ['g', 'r', 'a', 'm'] t).isSome ||
    (match litPrefix ['g'] t with
     | some [] => true
     | some (c :: _) => !isWordChar c
     | none => false)

/-- Suffix `\s*(?:tael)` of pattern 5. -/
def suffixTael (s : List Char) : Bool := (litPrefix ['t', 'a', 'e', 'l'] (afterSpaces s)).isSome

/-- Try `([\d.]+)<suffix>` anchored at the head of `s`, returning the capture. -/
def matchNumAt (suffix : List Char → Bool) (s : List Char) : Option (List Char) :=
  let run := s.takeWhile isNumChar
  if run.isEmpty then none
  else if suffix (s.drop run.length) then some run else none

/-- `re.search` for `([\d.]+)<suffix>`: leftmost starting position wins. -/
def searchNum (suffix : List Char → Bool) : List Char → Option (List Char)
  | [] => none
  | c :: t =>
    match matchNumAt suffix (c :: t) with
    | some r => some r
    | none => searchNum suffix t

/-- Try `(\d+/\d+)\s*oz` anchored at the head of `s`, returning the two
digit groups of the capture. -/
def matchFracAt (s : List Char) : Option (List Char × List Char) :=
  let d1 := s.takeWhile Char.isDigit
  if d1.isEmpty then none
  else
    match s.drop d1.length with
    | '/' :: rest =>
      let d2 := rest.takeWhile Char.isDigit
      if d2.isEmpty then none
      else if suffixOz (rest.drop d2.length) then some (d1, d2) else none
    | _ => none

/-- `re.search` for `(\d+/\d+)\s*oz`. -/
def searchFrac : List Char → Option (List Char × List Char)
  | [] => none
  | c :: t =>
    match matchFracAt (c :: t) with
    | some r => some r
    | none => searchFrac t

/-- Python `needle in hay` on strings: contiguous-substring test. -/
def hasSubstr (hay needle : List Char) : Bool :=
  (litPrefix needle hay).isSome ||
    match hay with
    | [] => false
    | _ :: t => hasSubstr t needle

/-! ### Text normalizer (`scrape_prices.py`) -/

deriving instance DecidableEq for Except

/-- The exceptions reachable in the embedded code. -/
inductive PyErr where
  | zeroDivisionError
  | valueError
deriving DecidableEq

/-- `TROY_OZ_PER_GRAM = 1 / 31.1035`. -/
def TROY_OZ_PER_GRAM : ℚ := 1 / 31.1035

/-- `TROY_OZ_PER_KG = 1000 / 31.1035`. -/
def TROY_OZ_PER_KG : ℚ := 1000 / 31.1035

/-- `float(g) * mult`, raising `ValueError` when the capture is not a valid
float literal (e.g. `"1.2.3"`). -/
def weightFromNum (g : List Char) (mult : ℚ) : Except PyErr (Option ℚ) :=
  match floatOfNumString g with
  | none => Except.error PyErr.valueError
  | some v => Except.ok (some (v * mult))

/-- `parse_weight_oz(name)`: ordered unit patterns (fractional oz, oz, kg,
gram, tael), first match wins; the two `maplegram` special cases are
checked only after every pattern fails; no match returns `none`.
Division by a zero fraction denominator raises `ZeroDivisionError`. -/
def parse_weight_oz (name : String) : Except PyErr (Option ℚ) :=
  let nl := pyStripChars (lowerChars name.data)
  match searchFrac nl with
  | some (d1, d2) =>
    if digitsToNat d2 = 0 then Except.error PyErr.zeroDivisionError
    else Except.ok (some ((digitsToNat d1 : ℚ) / (digitsToNat d2 : ℚ)))
  | none =>
    match searchNum suffixOz nl with
    | some g => weightFromNum g 1
    | none =>
      match searchNum suffixKg nl with
      | some g => weightFromNum g TROY_OZ_PER_KG
      | none =>
        match searchNum suffixGram nl with
        | some g => weightFromNum g TROY_OZ_PER_GRAM
        | none =>
          match searchNum suffixTael nl with
          | some g => weightFromNum g ((37.5 : ℚ) * TROY_OZ_PER_GRAM)
          | none =>
            if hasSubstr nl "maplegram25".data ||
                hasSubstr nl "maplegram 25".data then
              Except.ok (some (25 * TROY_OZ_PER_GRAM))
            else Except.ok none

/-- `classify_product_type(name, category_hint)`: fixed keyword precedence. -/
def classify_product_type (name : String) (category_hint : String := "") : String :=
  let nl := lowerChars name.data
  let cl := lowerChars category_hint.data
  let has := fun (h : List Char) (w : String) => hasSubstr h w.data
  if ["unalloc", "pool", "pool allocated"].any (has nl) then "unallocated"
  else if ["coin", "kangaroo", "kookaburra", "koala", "lunar", "britannia",
      "eagle", "maple", "philharmonic", "buffalo", "krugerrand", "sovereign",
      "nugget", "dragon", "snake", "horse", "emu", "swan", "phoenix",
      "guardian", "proclamation", "olympics", "rectangular coin"].any (has nl) then "coin"
  else if has cl "coin" then "coin"
  else if ["minted", "tablet"].any (has nl) then "minted_bar"
  else if ["round"].any (has nl) then "round"
  else if ["bar", "bullion", "cast", "ingot"].any (has nl) then "bar"
  else if has cl "cast" then "bar"
  else if has cl "minted" then "minted_bar"
  else "bar"

/-- `classify_metal(name, section)`: platinum, then silver, then palladium,
default gold. -/
def classify_metal (name : String) (section_hint : String := "") : String :=
  let nl := lowerChars (name ++ " " ++ section_hint).data
  let has := fun (w : String) => hasSubstr nl w.data
  if has "platinum" then "platinum"
  else if has "silver" then "silver"
  else if has "palladium" then "palladium"
  else "gold"

/-- `parse_price(s)`: strip, drop `$`/`,`/space, parse the float; malformed
text yields `none`. -/
def parse_price (s : String) : Option ℚ :=
  if s = "" then none
  else
    pyFloatOfString
      ((pyStripChars s.data).filter (fun c => c != '$' && c != ',' && c != ' '))

/-! ### Data model -/

/-- One `volume_pricing` tier (`{'min_qty': .., 'max_qty': .., 'price': ..}`);
`max_qty` may be the JSON null. -/
structure Tier where
  min_qty : ℚ
  max_qty : Option ℚ
  price : ℚ
deriving DecidableEq

/-- A normalized product dictionary as built by the adapters.  `Option`
fields model dictionary keys that may be absent or hold `None`
(`in_stock := none` models a dictionary without the key at all, as read by
`p.get('in_stock', True)`). -/
structure Product where
  dealer : String
  dealer_id : String
  name : String
  metal : String
  type : String
  weight_oz : ℚ
  buy_price : Option ℚ
  sell_back_price : Option ℚ
  price_per_oz : Option ℚ
  url : String
  in_stock : Option Bool
  volume_pricing : Option (List Tier) := none
  sku : Option String := none
deriving DecidableEq

/-- A deal dictionary as built by `find_best_deals`.  The three derived
display strings of the source (`type_label`, `unit_weight_label`,
`description`) are pure presentation formatting of other fields and are
not modelled. -/
structure Deal where
  name : String
  dealer : String
  dealer_id : String
  type : String
  qty : ℤ
  unit_weight : ℚ
  unit_price : ℚ
  total_cost : ℚ
  actual_oz : ℚ
  cost_per_oz : ℚ
  sell_back : Option ℚ
  url : String
  in_stock : Bool
deriving DecidableEq

/-! ### Deal optimizer (`generate_site.py`, `find_best_deals`) -/

/-- Python truthiness of `p.get('buy_price')`: false for a missing key,
`None`, and a price of exactly `0`. -/
def truthyPrice (o : Option ℚ) : Bool :=
  match o with
  | some x => x != 0
  | none => false

/-- The loop body of `find_best_deals` for one catalog product: `None`
models `continue`. -/
def mkDealOfProduct (target_oz : ℚ) (p : Product) : Option Deal :=
  let w := p.weight_oz
  if w ≤ 0 then none
  else
    match p.buy_price with
    | none => none
    | some price =>
      let qty_rounded := pyRound (target_oz / w)
      if qty_rounded < 1 then none
      else
        let actual_oz := (qty_rounded : ℚ) * w
        if pyAbs (actual_oz - target_oz) / target_oz > 1 / 100 then none
        else
          let total_cost := (qty_rounded : ℚ) * price
          some
            { name := p.name
              dealer := p.dealer
              dealer_id := p.dealer_id
              type := p.type
              qty := qty_rounded
              unit_weight := w
              unit_price := price
              total_cost := round2 total_cost
              actual_oz := round4 actual_oz
              cost_per_oz := round2 (total_cost / actual_oz)
              sell_back := p.sell_back_price
              url := p.url
              in_stock := p.in_stock.getD true }

/-- Sort key of `deals.sort(key=lambda d: d['total_cost'])`. -/
def dealLE (a b : Deal) : Prop := a.total_cost ≤ b.total_cost

instance : DecidableRel dealLE :=
  fun a b => inferInstanceAs (Decidable (a.total_cost ≤ b.total_cost))

instance : IsTotal Deal dealLE := ⟨fun a b => le_total a.total_cost b.total_cost⟩

instance : IsTrans Deal dealLE := ⟨fun _ _ _ h1 h2 => le_trans h1 h2⟩

/-- The deal list of `find_best_deals` before sorting, in catalog order:
filter to the metal with a truthy `buy_price` and truthy
`p.get('in_stock', True)`, then run the loop body. -/
def rawDeals (products : List Product) (metal : String) (target_oz : ℚ) : List Deal :=
  (products.filter
      (fun p => p.metal == metal && truthyPrice p.buy_price && p.in_stock.getD true)).filterMap
    (mkDealOfProduct target_oz)

/-- `find_best_deals(products, metal, target_oz)`: the raw deals sorted
stably ascending by `total_cost` (Python `list.sort` is stable; insertion
sort realises the same stable order). -/
def find_best_deals (products : List Product) (metal : String) (target_oz : ℚ) : List Deal :=
  List.insertionSort dealLE (rawDeals products metal target_oz)

/-! ### Table-layout adapter (`scrape_ainslie`)

Input: the `(name, sell_back, buy_price)` row tuples captured by the row
regex, grouped per metal section (the section splitting over the fetched
HTML is upstream extraction). -/

/-- One captured product row: `(name, sell_back, buy_price)`. -/
def AinslieRow : Type := String × String × String

/-- The product dictionary built for one surviving Ainslie row. -/
def mkAinslieProduct (metal : String) (name : String) (sell_back : String)
    (w : ℚ) (buy_f : ℚ) : Product :=
  { dealer := "Ainslie Bullion"
    dealer_id := "ainslie"
    name := pyStripStr name
    metal := metal
    type := classify_product_type name
    weight_oz := round4 w
    buy_price := some buy_f
    sell_back_price := parse_price sell_back
    price_per_oz := if w > 0 then some (round2 (buy_f / w)) else none
    url := "https://ainsliebullion.com.au/Charts"
    in_stock := some true }

/-- The row loop of `scrape_ainslie` over one metal section: skip rows whose
weight is `None` or `0` or whose buy price parses to `None`; a raised parse
exception aborts the whole scraper. -/
def scrapeAinslieRows (metal : String) : List AinslieRow → Except PyErr (List Product)
  | [] => Except.ok []
  | (name, sell_back, buy_s) :: rest =>
    match parse_weight_oz name with
    | Except.error e => Except.error e
    | Except.ok none => scrapeAinslieRows metal rest
    | Except.ok (some w) =>
      if w = 0 then scrapeAinslieRows metal rest
      else
        match parse_price buy_s with
        | none => scrapeAinslieRows metal rest
        | some buy_f =>
          (scrapeAinslieRows metal rest).map
            (fun ps => mkAinslieProduct metal name sell_back w buy_f :: ps)

/-- `scrape_ainslie`, from the metal sections onwards. -/
def scrape_ainslie : List (String × List AinslieRow) → Except PyErr (List Product)
  | [] => Except.ok []
  | (metal, rows) :: rest =>
    match scrapeAinslieRows metal rows with
    | Except.error e => Except.error e
    | Except.ok ps => (scrape_ainslie rest).map (fun ps2 => ps ++ ps2)

/-! ### Item-grid adapter (`scrape_abc_store_page`)

Input: the per-item regex captures of one store page, plus the page-level
lookup from an item identifier to its inline JSON tier table
(`none` models both "no `JSON.parse` script found" and a
`json.JSONDecodeError`, which the source swallows with `pass`). -/

/-- The regex captures for one `item item-infi` block. -/
structure AbcItem where
  name : Option String
  priceText : Option String
  link : Option String
  itemId : Option String
deriving DecidableEq

/-- One tier of the inline JSON tier table, in the source's key-sorted
order; `min`/`max` may be absent, `price` is the raw JSON string. -/
structure RawTier where
  min : Option ℚ
  max : Option ℚ
  price : String
deriving DecidableEq

/-- The tier list built from the JSON table: keep tiers whose price parses
truthy, defaulting `min_qty` to 1. -/
def buildTiers (raw : List RawTier) : List Tier :=
  raw.filterMap
    (fun t =>
      match parse_price t.price with
      | some p => if p = 0 then none else some ⟨t.min.getD 1, t.max, p⟩
      | none => none)

/-- The item loop body of `scrape_abc_store_page`: `ok none` models
`continue`. -/
def processAbcItem (tierJson : String → Option (List RawTier)) (pageUrl metal : String)
    (item : AbcItem) : Except PyErr (Option Product) :=
  match item.name with
  | none => Except.ok none
  | some rawName =>
    let name := pyStripStr rawName
    match item.priceText with
    | none => Except.ok none
    | some pt =>
      match parse_price pt with
      | none => Except.ok none
      | some buy =>
        if buy = 0 then Except.ok none
        else
          let prod_url := item.link.getD pageUrl
          match parse_weight_oz name with
          | Except.error e => Except.error e
          | Except.ok none => Except.ok none
          | Except.ok (some w) =>
            if w = 0 then Except.ok none
            else
              let product : Product :=
                { dealer := "ABC Bullion"
                  dealer_id := "abc"
                  name := name
                  metal := metal
                  type := classify_product_type name
                  weight_oz := round4 w
                  buy_price := some buy
                  sell_back_price := none
                  price_per_oz := if w > 0 then some (round2 (buy / w)) else none
                  url := prod_url
                  in_stock := some true }
              match item.itemId with
              | none => Except.ok (some product)
              | some id =>
                match tierJson id with
                | none => Except.ok (some product)
                | some raw =>
                  let tiers := buildTiers raw
                  let product2 :=
                    if 1 < tiers.length then { product with volume_pricing := some tiers }
                    else product
                  match tiers with
                  | [] => Except.ok (some product2)
                  | t0 :: _ =>
                    Except.ok
                      (some
                        { product2 with
                          buy_price := some t0.price
                          price_per_oz := some (round2 (t0.price / w)) })

/-- `scrape_abc_store_page`, from the item blocks onwards. -/
def scrape_abc_store_page (tierJson : String → Option (List RawTier)) (pageUrl metal : String) :
    List AbcItem → Except PyErr (List Product)
  | [] => Except.ok []
  | item :: rest =>
    match processAbcItem tierJson pageUrl metal item with
    | Except.error e => Except.error e
    | Except.ok p? =>
      (scrape_abc_store_page tierJson pageUrl metal rest).map
        (fun ps =>
          match p? with
          | some p => p :: ps
          | none => ps)

/-! ### Structured-API adapter (`scrape_perth_mint`)

Input: one optional item list per category node (`none` models a failed
fetch or a `json.JSONDecodeError`, both of which `continue` to the next
category).  An item structure field is the value reached by the source's
`item.get(..)` chain, with `Option` for levels that may be missing or
null. -/

/-- One JSON item of the Perth Mint product API. -/
structure PMItem where
  title : String
  description : String
  isArchived : Bool
  isNoLongerAvailable : Bool
  skuItemNumber : String
  adjustedPrice : Option ℚ
  basePrice : Option ℚ
  type : String
  category : String
  link : Option String
  canAddToCart : Bool
  isOutOfStock : Bool
deriving DecidableEq

/-- The price resolution of the source:
`buy = adjusted.get('price'); if not buy: buy = base.get('price')`.
A present-but-zero adjusted price falls through to the base price. -/
def pmResolvePrice (it : PMItem) : Option ℚ :=
  match it.adjustedPrice with
  | some a => if a ≠ 0 then some a else it.basePrice
  | none => it.basePrice

/-- The item loop body of `scrape_perth_mint`, threading the `seen_skus`
set (`seen` is updated before the price/type/weight checks, exactly as in
the source). -/
def processPMItem (seen : List String) (it : PMItem) :
    Except PyErr (Option Product × List String) :=
  let title := if it.title ≠ "" then it.title else it.description
  if title = "" then Except.ok (none, seen)
  else if it.isArchived || it.isNoLongerAvailable then Except.ok (none, seen)
  else
    let sku := it.skuItemNumber
    if seen.contains sku then Except.ok (none, seen)
    else
      let seen2 := sku :: seen
      match pmResolvePrice it with
      | none => Except.ok (none, seen2)
      | some b =>
        if b = 0 then Except.ok (none, seen2)
        else if it.type ≠ "Bullion" then Except.ok (none, seen2)
        else
          let metal := classify_metal title it.category
          match parse_weight_oz title with
          | Except.error e => Except.error e
          | Except.ok none => Except.ok (none, seen2)
          | Except.ok (some w) =>
            if w = 0 then Except.ok (none, seen2)
            else
              Except.ok
                (some
                  { dealer := "Perth Mint"
                    dealer_id := "perth_mint"
                    name := pyStripStr title
                    metal := metal
                    type := classify_product_type title it.category
                    weight_oz := round4 w
                    buy_price := some b
                    sell_back_price := none
                    price_per_oz := if w > 0 then some (round2 (b / w)) else none
                    url := it.link.getD "https://www.perthmint.com/shop/bullion/"
                    in_stock := some (it.canAddToCart && !it.isOutOfStock)
                    sku := some sku },
                  seen2)

/-- The item loop of `scrape_perth_mint` over one category's items. -/
def pmLoop (seen : List String) : List PMItem → Except PyErr (List Product × List String)
  | [] => Except.ok ([], seen)
  | it :: rest =>
    match processPMItem seen it with
    | Except.error e => Except.error e
    | Except.ok (p?, seen2) =>
      (pmLoop seen2 rest).map
        (fun r =>
          (match p? with
           | some p => p :: r.1
           | none => r.1,
           r.2))

/-- The category loop of `scrape_perth_mint`. -/
def pmCats (seen : List String) : List (Option (List PMItem)) → Except PyErr (List Product)
  | [] => Except.ok []
  | none :: rest => pmCats seen rest
  | some items :: rest =>
    match pmLoop seen items with
    | Except.error e => Except.error e
    | Except.ok (ps, seen2) => (pmCats seen2 rest).map (fun ps2 => ps ++ ps2)

/-- `scrape_perth_mint`, from the per-category JSON item lists onwards,
with an initially empty `seen_skus`. -/
def scrape_perth_mint (cats : List (Option (List PMItem))) : Except PyErr (List Product) :=
  pmCats [] cats

/-! ### Catalog builder (`scrape_all`)

Input: the outcome of each scraper in order (`Except.error ()` models a
scraper that raised; `scrape_all` catches, logs and continues).  The wall
clock `datetime.now` is passed in as an opaque timestamp string. -/

/-- The run-result dictionary of `scrape_all`. -/
structure ScrapeResult where
  scraped_at : String
  total_products : ℕ
  dealers : List String
  products : List Product
deriving DecidableEq

/-- `all_products`: the `extend` loop over the scrapers, a raised scraper
contributing nothing. -/
def collectOk : List (Except Unit (List Product)) → List Product
  | [] => []
  | Except.ok ps :: rest => ps ++ collectOk rest
  | Except.error _ :: rest => collectOk rest

/-- `scrape_all`: combined product list plus run metadata.  The source
computes `dealers` as `list(set(p['dealer'] for p in all_products))`; the
set is modelled as `dedup` (the claims here do not depend on the iteration
order of a Python set). -/
def scrape_all (results : List (Except Unit (List Product))) (now : String) : ScrapeResult :=
  let all_products := collectOk results
  { scraped_at := now
    total_products := all_products.length
    dealers := (all_products.map Product.dealer).dedup
    products := all_products }

/-! ### Basic lemmas about the embedded primitives -/

theorem floatOfNumString_nonneg {s : List Char} {q : ℚ}
    (h : floatOfNumString s = some q) : 0 ≤ q := by
  unfold floatOfNumString at h
  split at h
  · simp only [Option.some.injEq] at h
    subst h
    positivity
  · exact absurd h (by simp)

theorem weightFromNum_nonneg {g : List Char} {m w : ℚ}
    (h : weightFromNum g m = Except.ok (some w)) (hm : 0 ≤ m) : 0 ≤ w := by
  unfold weightFromNum at h
  split at h
  · exact absurd h (by simp)
  · rename_i v hv
    simp only [Except.ok.injEq, Option.some.injEq] at h
    subst h
    exact mul_nonneg (floatOfNumString_nonneg hv) hm

theorem TROY_OZ_PER_GRAM_pos : 0 < TROY_OZ_PER_GRAM := by norm_num [TROY_OZ_PER_GRAM]

theorem TROY_OZ_PER_KG_pos : 0 < TROY_OZ_PER_KG := by norm_num [TROY_OZ_PER_KG]

/-- Every weight produced by `parse_weight_oz` is non-negative: every unit
pattern captures only digits and dots-valued numerals, and every unit
multiplier is positive. -/
theorem parse_weight_oz_nonneg {name : String} {w : ℚ}
    (h : parse_weight_oz name = Except.ok (some w)) : 0 ≤ w := by
  simp only [parse_weight_oz] at h
  split at h
  · split at h
    · exact absurd h (by simp)
    · simp only [Except.ok.injEq, Option.some.injEq] at h
      subst h
      positivity
  · split at h
    · exact weightFromNum_nonneg h (by norm_num)
    · split at h
      · exact weightFromNum_nonneg h TROY_OZ_PER_KG_pos.le
      · split at h
        · exact weightFromNum_nonneg h TROY_OZ_PER_GRAM_pos.le
        · split at h
          · exact weightFromNum_nonneg h
              (mul_nonneg (by norm_num) TROY_OZ_PER_GRAM_pos.le)
          · split at h
            · simp only [Except.ok.injEq, Option.some.injEq] at h
              subst h
              exact mul_nonneg (by norm_num) TROY_OZ_PER_GRAM_pos.le
            · exact absurd h (by simp)

theorem pyRound_nonneg {q : ℚ} (hq : 0 ≤ q) : 0 ≤ pyRound q := by
  have hf : (0 : ℤ) ≤ q.floor := Rat.le_floor.mpr (by exact_mod_cast hq)
  simp only [pyRound]
  split
  · exact hf
  · split
    · omega
    · split
      · exact hf
      · omega

theorem round4_nonneg {q : ℚ} (hq : 0 ≤ q) : 0 ≤ round4 q := by
  unfold round4
  have : (0 : ℤ) ≤ pyRound (q * 10000) := pyRound_nonneg (by positivity)
  positivity

/-! ### Stability of the deal sort

Python's `list.sort` is stable; the insertion sort used in the embedding
realises the same order.  Stability is stated as: for every cost value,
the sublist of deals with that exact `total_cost` is unchanged by the
sort. -/

theorem filter_cost_orderedInsert (c : ℚ) (a : Deal) :
    ∀ l : List Deal,
      (List.orderedInsert dealLE a l).filter (fun d => decide (d.total_cost = c)) =
        (a :: l).filter (fun d => decide (d.total_cost = c))
  | [] => rfl
  | b :: t => by
    simp only [List.orderedInsert]
    split
    · rfl
    · rename_i hab
      have hit := filter_cost_orderedInsert c a t
      by_cases ha : a.total_cost = c
      · have hb : ¬b.total_cost = c := by
          intro hb
          exact hab (show a.total_cost ≤ b.total_cost by rw [ha, hb])
        simp [List.filter_cons, ha, hb, hit]
      · simp [List.filter_cons, ha, hit]

theorem filter_cost_insertionSort (c : ℚ) :
    ∀ l : List Deal,
      (List.insertionSort dealLE l).filter (fun d => decide (d.total_cost = c)) =
        l.filter (fun d => decide (d.total_cost = c))
  | [] => rfl
  | a :: t => by
    simp only [List.insertionSort, filter_cost_orderedInsert, List.filter_cons]
    rw [← filter_cost_insertionSort c t]

/-- What the loop body guarantees for every deal it emits. -/
theorem mkDealOfProduct_spec {target_oz : ℚ} {p : Product} {d : Deal}
    (h : mkDealOfProduct target_oz p = some d) :
    1 ≤ d.qty ∧ d.qty = pyRound (target_oz / d.unit_weight) ∧
      ¬pyAbs ((d.qty : ℚ) * d.unit_weight - target_oz) / target_oz > 1 / 100 := by
  simp only [mkDealOfProduct] at h
  split at h
  · exact absurd h (by simp)
  · split at h
    · exact absurd h (by simp)
    · split at h
      · exact absurd h (by simp)
      · split at h
        · exact absurd h (by simp)
        · simp only [Option.some.injEq] at h
          subst h
          refine ⟨?_, rfl, ?_⟩
          · show (1 : ℤ) ≤ pyRound (target_oz / p.weight_oz)
            omega
          · show ¬pyAbs ((pyRound (target_oz / p.weight_oz) : ℚ) * p.weight_oz - target_oz) /
                target_oz > 1 / 100
            assumption

/-- **C1.** For every product list, metal and positive `target_oz`, every
option returned by `find_best_deals` has a positive integer quantity
`qty = round(target_oz / weight_oz)` (options with `qty < 1` are
rejected) and satisfies the tolerance invariant
`|achieved_oz - target_oz| / target_oz ≤ 0.01` where
`achieved_oz = qty * weight_oz`; and the returned list is sorted ascending
by `total_cost`, ties keeping the original catalog order (`rawDeals` is
the pre-sort deal list in catalog order, and the sort permutes no two
deals of equal `total_cost`). -/
theorem find_best_deals_spec (products : List Product) (metal : String) (target_oz : ℚ)
    (_ht : 0 < target_oz) :
    (∀ d ∈ find_best_deals products metal target_oz,
        1 ≤ d.qty ∧ d.qty = pyRound (target_oz / d.unit_weight) ∧
          |(d.qty : ℚ) * d.unit_weight - target_oz| / target_oz ≤ 1 / 100) ∧
      (find_best_deals products metal target_oz).Sorted dealLE ∧
      (∀ c : ℚ,
        (find_best_deals products metal target_oz).filter
            (fun d => decide (d.total_cost = c)) =
          (rawDeals products metal target_oz).filter (fun d => decide (d.total_cost = c))) := by
  refine ⟨?_, List.sorted_insertionSort dealLE _, fun c => filter_cost_insertionSort c _⟩
  intro d hd
  rw [find_best_deals, List.mem_insertionSort, rawDeals, List.mem_filterMap] at hd
  obtain ⟨p, _, hmk⟩ := hd
  obtain ⟨h1, h2, h3⟩ := mkDealOfProduct_spec hmk
  rw [pyAbs_eq_abs] at h3
  exact ⟨h1, h2, not_lt.mp h3⟩

/-- Witness for C1: the single-product catalog `[c1Prod]` with target 1 oz. -/
def c1Prod : Product :=
  { dealer := "Ainslie Bullion"
    dealer_id := "ainslie"
    name := "1oz Gold Cast Bar"
    metal := "gold"
    type := "bar"
    weight_oz := 1
    buy_price := some 3000
    sell_back_price := some 2900
    price_per_oz := some 3000
    url := "https://ainsliebullion.com.au/Charts"
    in_stock := some true }

theorem find_best_deals_spec_witness :
    (0 : ℚ) < 1 ∧
      ((∀ d ∈ find_best_deals [c1Prod] "gold" 1,
          1 ≤ d.qty ∧ d.qty = pyRound (1 / d.unit_weight) ∧
            |(d.qty : ℚ) * d.unit_weight - 1| / 1 ≤ 1 / 100) ∧
        (find_best_deals [c1Prod] "gold" 1).Sorted dealLE ∧
        (∀ c : ℚ,
          (find_best_deals [c1Prod] "gold" 1).filter (fun d => decide (d.total_cost = c)) =
            (rawDeals [c1Prod] "gold" 1).filter (fun d => decide (d.total_cost = c)))) :=
  ⟨by norm_num, find_best_deals_spec [c1Prod] "gold" 1 (by norm_num)⟩

/-! ### C2: the two worked optimizer examples -/

/-- In-stock 1 oz gold product priced $3000. -/
def c2Oz : Product :=
  { dealer := "Ainslie Bullion"
    dealer_id := "ainslie"
    name := "1oz Gold Cast Bar"
    metal := "gold"
    type := "bar"
    weight_oz := 1
    buy_price := some 3000
    sell_back_price := none
    price_per_oz := some 3000
    url := "u1"
    in_stock := some true }

/-- In-stock half-oz gold product priced $1550. -/
def c2Half : Product :=
  { dealer := "ABC Bullion"
    dealer_id := "abc"
    name := "1/2oz Gold Minted Bar"
    metal := "gold"
    type := "minted_bar"
    weight_oz := 1 / 2
    buy_price := some 1550
    sell_back_price := none
    price_per_oz := some 3100
    url := "u2"
    in_stock := some true }

/-- In-stock 0.3 oz gold product. -/
def c2Odd : Product :=
  { dealer := "Perth Mint"
    dealer_id := "perth_mint"
    name := "0.3oz Gold Coin"
    metal := "gold"
    type := "coin"
    weight_oz := 3 / 10
    buy_price := some 900
    sell_back_price := none
    price_per_oz := some 3000
    url := "u3"
    in_stock := some true }

/-- **C2.** On the catalog with the $3000 1 oz product and the $1550 half-oz
product, `find_best_deals(catalog, gold, 1.0)` returns the direct 1 oz
option (qty 1, total $3000) first and the 2 × half-oz option (qty 2, total
$3100) second; on a catalog holding only a 0.3 oz product of the queried
metal, the result is empty (qty rounds to 3, achieved 0.9 oz, 10%
deviation beyond the 1% tolerance). -/
theorem find_best_deals_examples :
    (find_best_deals [c2Oz, c2Half] "gold" 1).map (fun d => (d.name, d.qty, d.total_cost)) =
        [("1oz Gold Cast Bar", 1, 3000), ("1/2oz Gold Minted Bar", 2, 3100)] ∧
      find_best_deals [c2Odd] "gold" 1 = [] := by
  constructor
  · decide
  · decide

/-! ### C10: stock defaulting and price truthiness in the optimizer filter -/

/-- A product dictionary with no `in_stock` key at all. -/
def c10NoStockKey : Product :=
  { dealer := "Ainslie Bullion"
    dealer_id := "ainslie"
    name := "1oz Gold Cast Bar"
    metal := "gold"
    type := "bar"
    weight_oz := 1
    buy_price := some 3000
    sell_back_price := none
    price_per_oz := some 3000
    url := "u"
    in_stock := none }

/-- **C10.** The optimizer's filter uses defaulting and truthiness, not
strict presence tests: a catalog product with no `in_stock` key is treated
as in stock and can appear in the returned options, while a product whose
`buy_price` is exactly 0 is excluded — removing it never changes the
result. -/
theorem find_best_deals_truthiness :
    ((find_best_deals [c10NoStockKey] "gold" 1).map (fun d => (d.name, d.in_stock)) =
        [("1oz Gold Cast Bar", true)]) ∧
      ∀ (products : List Product) (metal : String) (target_oz : ℚ) (p : Product),
        p.buy_price = some 0 →
          find_best_deals (p :: products) metal target_oz =
            find_best_deals products metal target_oz := by
  refine ⟨by decide, fun products metal target_oz p hp => ?_⟩
  simp only [find_best_deals, rawDeals, List.filter_cons, hp, truthyPrice]
  simp

/-- The same product with a present-but-zero buy price. -/
def c10ZeroPrice : Product := { c10NoStockKey with buy_price := some 0 }

theorem find_best_deals_truthiness_witness :
    find_best_deals [c10ZeroPrice] "gold" 1 = find_best_deals [] "gold" 1 :=
  find_best_deals_truthiness.2 [] "gold" 1 c10ZeroPrice rfl

/-! ### C5: the weight parser is not total -/

/-- **C5** (code bug).  The weight parser is *not* total: `"1/0oz"` matches
the fractional-ounce pattern with a zero denominator and the division
`float('1') / float('0')` raises `ZeroDivisionError`; `"1.2.3oz"` matches
the decimal-ounce pattern with capture `"1.2.3"` and `float('1.2.3')`
raises `ValueError`.  Each would crash the adapter processing the
candidate (only the run-level `except` in `scrape_all` would catch it,
discarding the dealer's whole catalog). -/
theorem parse_weight_oz_raises :
    parse_weight_oz "1/0oz" = Except.error PyErr.zeroDivisionError ∧
      parse_weight_oz "1.2.3oz" = Except.error PyErr.valueError := by
  constructor
  · decide
  · decide

/-! ### C6: pattern order and the exact-value table -/

/-- **C6.** `parse_weight_oz` applies its unit patterns in the fixed order
fractional-ounce, decimal ounce, decimal kilogram, decimal gram, decimal
tael, first match winning, and checks the two literal `maplegram` special
cases (25 grams) only after all unit patterns fail.  The first five
conjuncts are the exact-value table; the rest exhibit the order: an ounce
match beats an earlier-in-the-string gram or kilogram match, a kilogram
match beats an earlier gram match, a gram match beats an earlier tael
match, and a unit match beats the `maplegram25` special case. -/
theorem parse_weight_oz_table :
    parse_weight_oz "1/2oz" = Except.ok (some (1 / 2)) ∧
      parse_weight_oz "1oz" = Except.ok (some 1) ∧
      parse_weight_oz "1kg" = Except.ok (some (1000 / 31.1035)) ∧
      parse_weight_oz "100g" = Except.ok (some (100 * (1 / 31.1035))) ∧
      parse_weight_oz "37.5g" = Except.ok (some (37.5 * (1 / 31.1035))) ∧
      parse_weight_oz "100g 1oz" = Except.ok (some 1) ∧
      parse_weight_oz "1kg 2oz" = Except.ok (some 2) ∧
      parse_weight_oz "1g 1kg" = Except.ok (some TROY_OZ_PER_KG) ∧
      parse_weight_oz "1tael 1g" = Except.ok (some (1 * TROY_OZ_PER_GRAM)) ∧
      parse_weight_oz "maplegram25" = Except.ok (some (25 * TROY_OZ_PER_GRAM)) ∧
      parse_weight_oz "maplegram25 1oz" = Except.ok (some 1) ∧
      parse_weight_oz "no weight here" = Except.ok none := by
  refine ⟨?_, ?_, ?_, ?_, ?_, ?_, ?_, ?_, ?_, ?_, ?_, ?_⟩ <;> decide

/-! ### C7: product-type classification -/

/-- The first keyword gate of `classify_product_type`: some unallocated
keyword occurs in the lowered name. -/
def hasUnallocKeyword (name : String) : Bool :=
  ["unalloc", "pool", "pool allocated"].any
    (fun w => hasSubstr (lowerChars name.data) w.data)

/-- **C7.** `classify_product_type` follows the fixed precedence:
`"1oz Kangaroo Coin"` is a coin (coin keyword precedes the bar check),
`"1kg Cast Bar"` is a bar, `"10oz Minted Bar"` is a minted bar (minted
precedes bar); and a name containing an unallocated keyword classifies as
unallocated regardless of the category hint or any other keyword present,
because that gate is checked first. -/
theorem classify_product_type_spec :
    classify_product_type "1oz Kangaroo Coin" = "coin" ∧
      classify_product_type "1kg Cast Bar" = "bar" ∧
      classify_product_type "10oz Minted Bar" = "minted_bar" ∧
      ∀ (name category_hint : String),
        hasUnallocKeyword name = true →
          classify_product_type name category_hint = "unallocated" := by
  refine ⟨by decide, by decide, by decide, fun name category_hint h => ?_⟩
  simp only [hasUnallocKeyword] at h
  simp only [classify_product_type]
  rw [if_pos h]

theorem classify_product_type_spec_witness :
    classify_product_type "1oz Gold Pool Allocated Cast Bar Coin" "minted" = "unallocated" :=
  classify_product_type_spec.2.2.2 "1oz Gold Pool Allocated Cast Bar Coin" "minted" (by decide)

/-! ### C3: run metadata of the catalog build -/

/-- A product as contributed by the first scraper. -/
def c3ProdA : Product :=
  { dealer := "Ainslie Bullion"
    dealer_id := "ainslie"
    name := "1oz Gold Cast Bar"
    metal := "gold"
    type := "bar"
    weight_oz := 1
    buy_price := some 3000
    sell_back_price := none
    price_per_oz := some 3000
    url := "uA"
    in_stock := some true }

/-- A product as contributed by the third scraper. -/
def c3ProdC : Product :=
  { dealer := "Perth Mint"
    dealer_id := "perth_mint"
    name := "1oz Gold Coin"
    metal := "gold"
    type := "coin"
    weight_oz := 1
    buy_price := some 3050
    sell_back_price := none
    price_per_oz := some 3050
    url := "uC"
    in_stock := some true
    sku := some "S1" }

/-- **C3, counterexample.**  The run result does *not* record which
dealers failed: a run in which the second scraper raised is
indistinguishable from a run in which it succeeded with zero products —
`scrape_all` returns the very same result dictionary (timestamp, total
count, contributing dealers and products), so no component of the result
can be the claimed list of failed dealers. -/
theorem scrape_all_no_failed_list :
    scrape_all [Except.ok [c3ProdA], Except.error (), Except.ok [c3ProdC]] "2026-10-12T00:00:00" =
      scrape_all [Except.ok [c3ProdA], Except.ok [], Except.ok [c3ProdC]] "2026-10-12T00:00:00" := by
  decide

/-- Products of every scraper that returned are in `all_products`. -/
theorem mem_collectOk {results : List (Except Unit (List Product))} {ps : List Product}
    (hres : Except.ok ps ∈ results) {p : Product} (hp : p ∈ ps) : p ∈ collectOk results := by
  induction results with
  | nil => exact absurd hres (List.not_mem_nil _)
  | cons r rest ih =>
    rcases List.mem_cons.mp hres with h | h
    · subst h
      simp only [collectOk, List.mem_append]
      exact Or.inl hp
    · cases r with
      | ok qs =>
        simp only [collectOk, List.mem_append]
        exact Or.inr (ih h)
      | error e => exact ih h

/-- **C3, amended.**  The catalog build returns, alongside the full
product list, run metadata containing the timestamp, the total product
count, and the list of dealers that contributed at least one product; a
scraper's failure only removes its own products (products of every
scraper that returned are still present), and the failed dealers are not
recorded anywhere in the result (only logged). -/
theorem scrape_all_spec (results : List (Except Unit (List Product))) (now : String) :
    (scrape_all results now).scraped_at = now ∧
      (scrape_all results now).total_products = (scrape_all results now).products.length ∧
      (scrape_all results now).dealers =
        ((scrape_all results now).products.map Product.dealer).dedup ∧
      ∀ ps, Except.ok ps ∈ results → ∀ p ∈ ps, p ∈ (scrape_all results now).products :=
  ⟨rfl, rfl, rfl, fun _ hres _ hp => mem_collectOk hres hp⟩

theorem scrape_all_spec_witness :
    c3ProdA ∈
      (scrape_all [Except.ok [c3ProdA], Except.error (), Except.ok [c3ProdC]]
          "2026-10-12T00:00:00").products :=
  (scrape_all_spec [Except.ok [c3ProdA], Except.error (), Except.ok [c3ProdC]]
        "2026-10-12T00:00:00").2.2.2
    [c3ProdA] (by decide) c3ProdA (by decide)

/-! ### C4: the inline tier table of the item-grid adapter -/

/-- A tier table with exactly one (parseable) tier. -/
def c4Raw : List RawTier := [{ min := some 1, max := none, price := "2900" }]

/-- Page-level tier-table lookup: item `7` has the single-tier table. -/
def c4TierJson : String → Option (List RawTier) := fun id =>
  if id = "7" then some c4Raw else none

/-- An item block scraped with a single price of $3,000 referencing item
identifier `7`. -/
def c4Item : AbcItem :=
  { name := some "1oz Gold Cast Bar"
    priceText := some "3,000"
    link := some "L"
    itemId := some "7" }

/-- The product the source builds for `c4Item`. -/
def c4Prod : Product :=
  { dealer := "ABC Bullion"
    dealer_id := "abc"
    name := "1oz Gold Cast Bar"
    metal := "gold"
    type := "bar"
    weight_oz := 1
    buy_price := some 2900
    sell_back_price := none
    price_per_oz := some 2900
    url := "L"
    in_stock := some true }

/-- **C4, counterexample.**  A tier table with exactly *one* tier still
overrides the single scraped price: the item's `price` captures `"3,000"`
(parsing to 3000), its one-tier table prices the item at 2900, and the
built product carries `buy_price = 2900` — the scraped price is not kept.
(`volume_pricing` is indeed not attached for a single tier.) -/
theorem abc_single_tier_overrides :
    (buildTiers c4Raw).length = 1 ∧
      parse_price "3,000" = some 3000 ∧
      processAbcItem c4TierJson "P" "gold" c4Item = Except.ok (some c4Prod) ∧
      c4Prod.buy_price = some 2900 ∧
      c4Prod.volume_pricing = none := by
  refine ⟨?_, ?_, ?_, ?_, ?_⟩ <;> decide

/-- **C4, amended.**  In the item-grid adapter, whenever an item block
referencing an inline JSON tier table yields a product: the
lowest-quantity tier's price replaces the single scraped price whenever
the tier table has at least one parseable tier (also when it has exactly
one), and the tier table is attached as `volume_pricing` exactly when it
has more than one tier. -/
theorem processAbcItem_tier_rule (tj : String → Option (List RawTier))
    (pageUrl metal : String) (item : AbcItem) (p : Product) (id : String)
    (raw : List RawTier) (hid : item.itemId = some id) (hraw : tj id = some raw)
    (hp : processAbcItem tj pageUrl metal item = Except.ok (some p)) :
    (∀ t0 ts, buildTiers raw = t0 :: ts → p.buy_price = some t0.price) ∧
      p.volume_pricing =
        (if 1 < (buildTiers raw).length then some (buildTiers raw) else none) := by
  simp only [processAbcItem, hid, hraw] at hp
  split at hp
  · exact absurd hp (by simp)
  · split at hp
    · exact absurd hp (by simp)
    · split at hp
      · exact absurd hp (by simp)
      · split at hp
        · exact absurd hp (by simp)
        · split at hp
          · exact absurd hp (by simp)
          · exact absurd hp (by simp)
          · split at hp
            · exact absurd hp (by simp)
            · split at hp
              · rename_i hnil
                rw [hnil] at hp
                simp only [List.length_nil] at hp
                rw [if_neg (by omega)] at hp
                simp only [Except.ok.injEq, Option.some.injEq] at hp
                subst hp
                constructor
                · intro t0 ts ht
                  rw [hnil] at ht
                  exact absurd ht (by simp)
                · rw [hnil]
                  simp only [List.length_nil]
                  rw [if_neg (by omega)]
              · rename_i t0 tail hcons
                simp only [Except.ok.injEq, Option.some.injEq] at hp
                subst hp
                constructor
                · intro t0' ts' ht'
                  rw [hcons] at ht'
                  injection ht' with h1 _
                  dsimp only
                  rw [h1]
                · dsimp only
                  by_cases hc : 1 < (buildTiers raw).length
                  · simp only [if_pos hc]
                  · simp only [if_neg hc]

theorem processAbcItem_tier_rule_witness :
    (∀ t0 ts, buildTiers c4Raw = t0 :: ts → c4Prod.buy_price = some t0.price) ∧
      c4Prod.volume_pricing =
        (if 1 < (buildTiers c4Raw).length then some (buildTiers c4Raw) else none) :=
  processAbcItem_tier_rule c4TierJson "P" "gold" c4Item c4Prod "7" c4Raw rfl (by decide)
    (by decide)

/-! ### C8: invariants of products entering the catalog -/

/-- The per-product catalog invariant actually maintained by the adapters:
the *parsed* weight `w` is strictly positive, the stored `weight_oz` is
`w` rounded to 4 decimals (hence only non-negative — see the
counterexample below for a stored weight of exactly 0), a buy price is
present, and `price_per_oz` is the buy price divided by the parsed weight,
rounded to 2 decimals. -/
def ProdInv (p : Product) : Prop :=
  0 ≤ p.weight_oz ∧
    ∃ w b, 0 < w ∧ p.weight_oz = round4 w ∧ p.buy_price = some b ∧
      p.price_per_oz = some (round2 (b / w))

theorem scrapeAinslieRows_inv {metal : String} :
    ∀ {rows : List AinslieRow} {ps : List Product},
      scrapeAinslieRows metal rows = Except.ok ps → ∀ p ∈ ps, ProdInv p
  | [], ps, h, p, hp => by
    simp only [scrapeAinslieRows, Except.ok.injEq] at h
    subst h
    exact absurd hp (List.not_mem_nil p)
  | (name, sell_back, buy_s) :: rest, ps, h, p, hp => by
    simp only [scrapeAinslieRows] at h
    split at h
    · exact absurd h (by simp)
    · exact scrapeAinslieRows_inv h p hp
    · rename_i w hw
      split at h
      · exact scrapeAinslieRows_inv h p hp
      · rename_i hwne
        have hw0 : 0 < w := lt_of_le_of_ne (parse_weight_oz_nonneg hw) (Ne.symm hwne)
        split at h
        · exact scrapeAinslieRows_inv h p hp
        · rename_i buy_f hbuy
          cases hrest : scrapeAinslieRows metal rest with
          | error e => rw [hrest] at h; simp [Except.map] at h
          | ok ps2 =>
            rw [hrest] at h
            simp only [Except.map, Except.ok.injEq] at h
            subst h
            rcases List.mem_cons.mp hp with hp | hp
            · subst hp
              exact ⟨round4_nonneg hw0.le, w, buy_f, hw0, rfl, rfl, by
                show (if w > 0 then some (round2 (buy_f / w)) else none) =
                  some (round2 (buy_f / w))
                rw [if_pos hw0]⟩
            · exact scrapeAinslieRows_inv hrest p hp

theorem scrape_ainslie_inv :
    ∀ {sections : List (String × List AinslieRow)} {ps : List Product},
      scrape_ainslie sections = Except.ok ps → ∀ p ∈ ps, ProdInv p
  | [], ps, h, p, hp => by
    simp only [scrape_ainslie, Except.ok.injEq] at h
    subst h
    exact absurd hp (List.not_mem_nil p)
  | (metal, rows) :: rest, ps, h, p, hp => by
    simp only [scrape_ainslie] at h
    split at h
    · exact absurd h (by simp)
    · rename_i ps1 h1
      cases hrest : scrape_ainslie rest with
      | error e => rw [hrest] at h; simp [Except.map] at h
      | ok ps2 =>
        rw [hrest] at h
        simp only [Except.map, Except.ok.injEq] at h
        subst h
        rcases List.mem_append.mp hp with hp | hp
        · exact scrapeAinslieRows_inv h1 p hp
        · exact scrape_ainslie_inv hrest p hp

theorem processAbcItem_inv {tj : String → Option (List RawTier)} {pageUrl metal : String}
    {item : AbcItem} {p : Product}
    (h : processAbcItem tj pageUrl metal item = Except.ok (some p)) : ProdInv p := by
  simp only [processAbcItem] at h
  split at h
  · exact absurd h (by simp)
  · split at h
    · exact absurd h (by simp)
    · split at h
      · exact absurd h (by simp)
      · rename_i buy hbuy
        split at h
        · exact absurd h (by simp)
        · split at h
          · exact absurd h (by simp)
          · exact absurd h (by simp)
          · rename_i w hw
            split at h
            · exact absurd h (by simp)
            · rename_i hwne
              have hw0 : 0 < w := lt_of_le_of_ne (parse_weight_oz_nonneg hw) (Ne.symm hwne)
              simp only [if_pos (show w > 0 from hw0)] at h
              repeat' (split at h)
              all_goals
                simp only [Except.ok.injEq, Option.some.injEq] at h
              all_goals subst h
              all_goals exact ⟨round4_nonneg hw0.le, w, _, hw0, rfl, rfl, rfl⟩

theorem scrape_abc_store_page_inv {tj : String → Option (List RawTier)}
    {pageUrl metal : String} :
    ∀ {items : List AbcItem} {ps : List Product},
      scrape_abc_store_page tj pageUrl metal items = Except.ok ps → ∀ p ∈ ps, ProdInv p
  | [], ps, h, p, hp => by
    simp only [scrape_abc_store_page, Except.ok.injEq] at h
    subst h
    exact absurd hp (List.not_mem_nil p)
  | item :: rest, ps, h, p, hp => by
    simp only [scrape_abc_store_page] at h
    split at h
    · exact absurd h (by simp)
    · rename_i p? hitem
      cases hrest : scrape_abc_store_page tj pageUrl metal rest with
      | error e => rw [hrest] at h; simp [Except.map] at h
      | ok ps2 =>
        rw [hrest] at h
        simp only [Except.map, Except.ok.injEq] at h
        subst h
        cases p? with
        | none => exact scrape_abc_store_page_inv hrest p hp
        | some q =>
          rcases List.mem_cons.mp hp with hp | hp
          · subst hp
            exact processAbcItem_inv hitem
          · exact scrape_abc_store_page_inv hrest p hp

theorem processPMItem_inv {seen seen2 : List String} {it : PMItem} {p : Product}
    (h : processPMItem seen it = Except.ok (some p, seen2)) : ProdInv p := by
  simp only [processPMItem] at h
  repeat' (split at h)
  all_goals simp only [Except.ok.injEq, Prod.mk.injEq, Option.some.injEq,
    reduceCtorEq, false_and, and_false] at h
  all_goals
    rename_i w hw hne hpm
  all_goals
    have hw0 : 0 < w := lt_of_le_of_ne (parse_weight_oz_nonneg hw) (Ne.symm hne)
  all_goals
    first
      | exact absurd (show w > 0 from hw0) hpm
      | (obtain ⟨h1, -⟩ := h
         subst h1
         exact ⟨round4_nonneg hw0.le, w, _, hw0, rfl, rfl, rfl⟩)

theorem pmLoop_inv :
    ∀ {items : List PMItem} {seen seen2 : List String} {ps : List Product},
      pmLoop seen items = Except.ok (ps, seen2) → ∀ p ∈ ps, ProdInv p
  | [], seen, seen2, ps, h, p, hp => by
    simp only [pmLoop, Except.ok.injEq, Prod.mk.injEq] at h
    obtain ⟨h1, -⟩ := h
    subst h1
    exact absurd hp (List.not_mem_nil p)
  | it :: rest, seen, seen2, ps, h, p, hp => by
    simp only [pmLoop] at h
    split at h
    · exact absurd h (by simp)
    · rename_i p? seenMid hit
      cases hrest : pmLoop seenMid rest with
      | error e => rw [hrest] at h; simp [Except.map] at h
      | ok r2 =>
        rw [hrest] at h
        obtain ⟨ps2, seenEnd⟩ := r2
        simp only [Except.map, Except.ok.injEq, Prod.mk.injEq] at h
        obtain ⟨hps, -⟩ := h
        subst hps
        cases p? with
        | none => exact pmLoop_inv hrest p hp
        | some q =>
          rcases List.mem_cons.mp hp with hp | hp
          · subst hp
            exact processPMItem_inv hit
          · exact pmLoop_inv hrest p hp

theorem pmCats_inv :
    ∀ {cats : List (Option (List PMItem))} {seen : List String} {ps : List Product},
      pmCats seen cats = Except.ok ps → ∀ p ∈ ps, ProdInv p
  | [], seen, ps, h, p, hp => by
    simp only [pmCats, Except.ok.injEq] at h
    subst h
    exact absurd hp (List.not_mem_nil p)
  | none :: rest, seen, ps, h, p, hp => @pmCats_inv rest seen ps h p hp
  | some items :: rest, seen, ps, h, p, hp => by
    simp only [pmCats] at h
    split at h
    · exact absurd h (by simp)
    · rename_i ps1 seen2 hitems
      cases hrest : pmCats seen2 rest with
      | error e => rw [hrest] at h; simp [Except.map] at h
      | ok ps2 =>
        rw [hrest] at h
        simp only [Except.map, Except.ok.injEq] at h
        subst h
        rcases List.mem_append.mp hp with hp | hp
        · exact pmLoop_inv hitems p hp
        · exact pmCats_inv hrest p hp

theorem scrape_perth_mint_inv {cats : List (Option (List PMItem))} {ps : List Product}
    (h : scrape_perth_mint cats = Except.ok ps) : ∀ p ∈ ps, ProdInv p :=
  pmCats_inv h

/-- The product the Ainslie row loop builds for a 0.00004 oz listing:
the *stored* `weight_oz` rounds to exactly 0. -/
def c8Tiny : Product :=
  { dealer := "Ainslie Bullion"
    dealer_id := "ainslie"
    name := "0.00004oz gold"
    metal := "gold"
    type := "bar"
    weight_oz := 0
    buy_price := some 2
    sell_back_price := some 1
    price_per_oz := some 50000
    url := "https://ainsliebullion.com.au/Charts"
    in_stock := some true }

/-- **C8, counterexample.**  A product can enter the catalog with a stored
`weight_oz` of exactly 0: the weight check `weight_oz == 0` runs on the
*parsed* weight (here 0.00004 oz), but the stored field is
`round(weight_oz, 4)`, which rounds 0.00004 down to 0 — so
"`weight_oz > 0` always" fails for the stored field. -/
theorem ainslie_stored_weight_zero :
    scrapeAinslieRows "gold" [("0.00004oz gold", "1", "2")] = Except.ok [c8Tiny] ∧
      c8Tiny.weight_oz = 0 := by
  constructor
  · decide
  · decide

/-- **C8, amended.**  Every product built by any of the three adapters
satisfies `ProdInv`: its parsed weight `w` is strictly positive
(candidates whose weight parses to `None` or 0 are discarded), the stored
`weight_oz` is `round(w, 4)` (hence non-negative, but 0 when
`w < 0.00005`), a buy price is present (candidates whose buy price parses
to `None` — for the item-grid and structured-API adapters, to `None` or 0
— are discarded), and `price_per_oz = round(buy_price / w, 2)` computed
from the parsed weight. -/
theorem catalog_product_invariants :
    (∀ (sections : List (String × List AinslieRow)) (ps : List Product),
        scrape_ainslie sections = Except.ok ps → ∀ p ∈ ps, ProdInv p) ∧
      (∀ (tj : String → Option (List RawTier)) (pageUrl metal : String)
          (items : List AbcItem) (ps : List Product),
          scrape_abc_store_page tj pageUrl metal items = Except.ok ps →
            ∀ p ∈ ps, ProdInv p) ∧
      (∀ (cats : List (Option (List PMItem))) (ps : List Product),
          scrape_perth_mint cats = Except.ok ps → ∀ p ∈ ps, ProdInv p) :=
  ⟨fun _ _ h => scrape_ainslie_inv h,
    fun _ _ _ _ _ h => scrape_abc_store_page_inv h,
    fun _ _ h => scrape_perth_mint_inv h⟩

/-- A well-behaved Ainslie row and its product, for the witness. -/
def c8Prod : Product :=
  { dealer := "Ainslie Bullion"
    dealer_id := "ainslie"
    name := "1oz Gold Cast Bar"
    metal := "gold"
    type := "bar"
    weight_oz := 1
    buy_price := some 3000
    sell_back_price := some 2900
    price_per_oz := some 3000
    url := "https://ainsliebullion.com.au/Charts"
    in_stock := some true }

theorem catalog_product_invariants_witness : ProdInv c8Prod :=
  catalog_product_invariants.1 [("gold", [("1oz Gold Cast Bar", "2900", "3000")])] [c8Prod]
    (by decide) c8Prod (by decide)

/-! ### C9: skip conditions, price resolution and SKU dedup of the
structured-API adapter -/

/-- What holds of an item that yielded a product: it was not archived or
no-longer-available, its type is the bullion marker, the product's SKU is
the item's, and the buy price is the resolved price (adjusted when
truthy, else base), which is present and non-zero. -/
def pmItemKept (it : PMItem) (p : Product) : Prop :=
  it.isArchived = false ∧ it.isNoLongerAvailable = false ∧ it.type = "Bullion" ∧
    p.sku = some it.skuItemNumber ∧
    ∃ b, pmResolvePrice it = some b ∧ b ≠ 0 ∧ p.buy_price = some b

theorem processPMItem_spec {seen seen2 : List String} {it : PMItem} {p : Product}
    (h : processPMItem seen it = Except.ok (some p, seen2)) :
    pmItemKept it p ∧ it.skuItemNumber ∉ seen ∧ seen2 = it.skuItemNumber :: seen := by
  simp only [processPMItem] at h
  repeat' (split at h)
  all_goals simp only [Except.ok.injEq, Prod.mk.injEq, Option.some.injEq,
    reduceCtorEq, false_and, and_false] at h
  all_goals
    rename_i harch hcont xq b hres hbz hty xw w hw hwne hpm
  all_goals
    have hw0 : 0 < w := lt_of_le_of_ne (parse_weight_oz_nonneg hw) (Ne.symm hwne)
  all_goals
    simp only [Bool.or_eq_true, not_or, Bool.not_eq_true] at harch
  all_goals
    first
      | exact absurd (show w > 0 from hw0) hpm
      | (obtain ⟨h1, h2⟩ := h
         subst h1
         exact ⟨⟨harch.1, harch.2, not_ne_iff.mp hty, rfl, b, hres, hbz, rfl⟩,
           fun hm => hcont (by simpa using hm), h2.symm⟩)

theorem processPMItem_seen {seen seen2 : List String} {it : PMItem} {p? : Option Product}
    (h : processPMItem seen it = Except.ok (p?, seen2)) : ∀ s ∈ seen, s ∈ seen2 := by
  simp only [processPMItem] at h
  repeat' (split at h)
  all_goals simp only [Except.ok.injEq, Prod.mk.injEq, reduceCtorEq] at h
  all_goals obtain ⟨-, h2⟩ := h
  all_goals intro s hs
  all_goals first
    | exact h2 ▸ hs
    | exact h2 ▸ List.mem_cons_of_mem _ hs

theorem pmLoop_spec :
    ∀ {items : List PMItem} {seen seen' : List String} {ps : List Product},
      pmLoop seen items = Except.ok (ps, seen') →
      (∀ s ∈ seen, s ∈ seen') ∧ (ps.map Product.sku).Nodup ∧
        ∀ p ∈ ps, (∃ it ∈ items, pmItemKept it p) ∧
          ∃ s, p.sku = some s ∧ s ∉ seen ∧ s ∈ seen'
  | [], seen, seen', ps, h => by
    simp only [pmLoop, Except.ok.injEq, Prod.mk.injEq] at h
    obtain ⟨h1, h2⟩ := h
    subst h1
    subst h2
    exact ⟨fun s hs => hs, List.nodup_nil, fun p hp => absurd hp (List.not_mem_nil p)⟩
  | it :: rest, seen, seen', ps, h => by
    simp only [pmLoop] at h
    split at h
    · exact absurd h (by simp)
    · rename_i p? seenMid hit
      cases hrest : pmLoop seenMid rest with
      | error e => rw [hrest] at h; simp [Except.map] at h
      | ok r2 =>
        obtain ⟨ps2, seenEnd⟩ := r2
        rw [hrest] at h
        simp only [Except.map, Except.ok.injEq, Prod.mk.injEq] at h
        obtain ⟨hps, hseen⟩ := h
        subst hseen
        obtain ⟨hsub2, hnodup2, hmem2⟩ := pmLoop_spec hrest
        have hsub1 : ∀ s ∈ seen, s ∈ seenMid := processPMItem_seen hit
        cases p? with
        | none =>
          subst hps
          refine ⟨fun s hs => hsub2 s (hsub1 s hs), hnodup2, fun p hp => ?_⟩
          obtain ⟨⟨it2, hit2, hkept⟩, s, hsku, hsni, hsin⟩ := hmem2 p hp
          exact ⟨⟨it2, List.mem_cons_of_mem _ hit2, hkept⟩, s, hsku,
            fun hs => hsni (hsub1 s hs), hsin⟩
        | some q =>
          subst hps
          obtain ⟨hkept, hnotin, hseenMid⟩ := processPMItem_spec hit
          have hqsku : q.sku = some it.skuItemNumber := hkept.2.2.2.1
          have hskuMid : it.skuItemNumber ∈ seenMid :=
            hseenMid ▸ List.mem_cons_self _ _
          refine ⟨fun s hs => hsub2 s (hsub1 s hs), ?_, ?_⟩
          · simp only [List.map_cons, List.nodup_cons]
            refine ⟨fun hmem => ?_, hnodup2⟩
            rw [List.mem_map] at hmem
            obtain ⟨p2, hp2, hsk⟩ := hmem
            obtain ⟨-, s, hs_eq, hs_ni, -⟩ := hmem2 p2 hp2
            rw [hqsku] at hsk
            rw [hsk] at hs_eq
            injection hs_eq with hs_eq
            exact hs_ni (hs_eq ▸ hskuMid)
          · intro p hp
            rcases List.mem_cons.mp hp with hp | hp
            · subst hp
              exact ⟨⟨it, List.mem_cons_self _ _, hkept⟩, it.skuItemNumber, hqsku,
                hnotin, hsub2 _ hskuMid⟩
            · obtain ⟨⟨it2, hit2, hkept2⟩, s, hsku, hsni, hsin⟩ := hmem2 p hp
              exact ⟨⟨it2, List.mem_cons_of_mem _ hit2, hkept2⟩, s, hsku,
                fun hs => hsni (hsub1 s hs), hsin⟩

theorem pmCats_spec :
    ∀ {cats : List (Option (List PMItem))} {seen : List String} {ps : List Product},
      pmCats seen cats = Except.ok ps →
      (ps.map Product.sku).Nodup ∧
        ∀ p ∈ ps, (∃ items, some items ∈ cats ∧ ∃ it ∈ items, pmItemKept it p) ∧
          ∃ s, p.sku = some s ∧ s ∉ seen
  | [], seen, ps, h => by
    simp only [pmCats, Except.ok.injEq] at h
    subst h
    exact ⟨List.nodup_nil, fun p hp => absurd hp (List.not_mem_nil p)⟩
  | none :: rest, seen, ps, h => by
    obtain ⟨hnd, hmem⟩ := @pmCats_spec rest seen ps h
    refine ⟨hnd, fun p hp => ?_⟩
    obtain ⟨⟨items, hin, hit⟩, hs⟩ := hmem p hp
    exact ⟨⟨items, List.mem_cons_of_mem _ hin, hit⟩, hs⟩
  | some items :: rest, seen, ps, h => by
    simp only [pmCats] at h
    split at h
    · exact absurd h (by simp)
    · rename_i ps1 seen2 hitems
      cases hrest : pmCats seen2 rest with
      | error e => rw [hrest] at h; simp [Except.map] at h
      | ok ps2 =>
        rw [hrest] at h
        simp only [Except.map, Except.ok.injEq] at h
        subst h
        obtain ⟨hsub1, hnodup1, hmem1⟩ := pmLoop_spec hitems
        obtain ⟨hnodup2, hmem2⟩ := pmCats_spec hrest
        constructor
        · rw [List.map_append, List.nodup_append]
          refine ⟨hnodup1, hnodup2, fun x hx1 hx2 => ?_⟩
          rw [List.mem_map] at hx1 hx2
          obtain ⟨p1, hp1, hsk1⟩ := hx1
          obtain ⟨p2, hp2, hsk2⟩ := hx2
          obtain ⟨-, s1, hs1, -, hs1in⟩ := hmem1 p1 hp1
          obtain ⟨-, s2, hs2, hs2ni⟩ := hmem2 p2 hp2
          rw [hs1] at hsk1
          rw [hs2] at hsk2
          rw [← hsk2] at hsk1
          injection hsk1 with hsk1
          exact hs2ni (hsk1 ▸ hs1in)
        · intro p hp
          rcases List.mem_append.mp hp with hp | hp
          · obtain ⟨⟨it2, hit2, hkept⟩, s, hsku, hsni, -⟩ := hmem1 p hp
            exact ⟨⟨items, List.mem_cons_self _ _, it2, hit2, hkept⟩, s, hsku, hsni⟩
          · obtain ⟨⟨items2, hin2, hit2⟩, s, hsku, hsni⟩ := hmem2 p hp
            exact ⟨⟨items2, List.mem_cons_of_mem _ hin2, hit2⟩, s, hsku,
              fun hs => hsni (hsub1 s hs)⟩

/-- An API item whose "adjusted" price is present but exactly 0, with a
base price of $100. -/
def c9Item : PMItem :=
  { title := "1oz Gold Bar"
    description := ""
    isArchived := false
    isNoLongerAvailable := false
    skuItemNumber := "A1"
    adjustedPrice := some 0
    basePrice := some 100
    type := "Bullion"
    category := "cast_bars"
    link := none
    canAddToCart := true
    isOutOfStock := false }

/-- The product the source builds for `c9Item`. -/
def c9Prod : Product :=
  { dealer := "Perth Mint"
    dealer_id := "perth_mint"
    name := "1oz Gold Bar"
    metal := "gold"
    type := "bar"
    weight_oz := 1
    buy_price := some 100
    sell_back_price := none
    price_per_oz := some 100
    url := "https://www.perthmint.com/shop/bullion/"
    in_stock := some true
    sku := some "A1" }

/-- **C9, counterexample.**  The price resolution uses truthiness, not
presence: for an item whose "adjusted" price field is present but 0, the
adapter takes the *base* price ($100) rather than the present adjusted
price, contradicting "the buy price is the adjusted price field when
present". -/
theorem pm_adjusted_zero_uses_base :
    c9Item.adjustedPrice = some 0 ∧
      c9Item.basePrice = some 100 ∧
      scrape_perth_mint [some [c9Item]] = Except.ok [c9Prod] ∧
      c9Prod.buy_price = some 100 := by
  refine ⟨?_, ?_, ?_, ?_⟩ <;> decide

/-- **C9, amended.**  In the structured-API adapter, every product comes
from an item that was not flagged archived or no-longer-available and
whose type is the bullion marker; its buy price is the "adjusted" price
field when that is present *and non-zero*, else the "base" price field,
and the item is skipped when the resolved price is absent or zero; and
products carry pairwise-distinct SKUs (duplicate SKUs across calls are
deduplicated — a later occurrence of a SKU already claimed never yields a
product). -/
theorem scrape_perth_mint_rules (cats : List (Option (List PMItem))) (ps : List Product)
    (h : scrape_perth_mint cats = Except.ok ps) :
    (ps.map Product.sku).Nodup ∧
      ∀ p ∈ ps, ∃ items, some items ∈ cats ∧ ∃ it ∈ items, pmItemKept it p := by
  obtain ⟨hnd, hmem⟩ := pmCats_spec h
  exact ⟨hnd, fun p hp => (hmem p hp).1⟩

theorem scrape_perth_mint_rules_witness :
    (([c9Prod].map Product.sku).Nodup ∧
      ∀ p ∈ [c9Prod],
        ∃ items, some items ∈ [some [c9Item]] ∧ ∃ it ∈ items, pmItemKept it p) :=
  scrape_perth_mint_rules [some [c9Item]] [c9Prod] (by decide)
